import Mathlib

/-!
Shallow embedding of the slot-filling prompt dialog of botfuel-dialog
(src/src/dialogs/prompt-dialog.js): the parameter matcher
(matchParameterWithCandidates), the entity resolver (computeEntities) and
the dialog status state machine (executeWhenBlocked / executeWhenWaiting /
executeWhenReady / executeWhenCompleted / execute).

Modelling conventions, chosen to follow the JavaScript source:
* JavaScript values reaching the dialog are modelled by `JsVal`; plain JS
  objects are association lists (`List (String × _)`) updated with JS
  object-spread semantics (`objSet`) and lodash `omit` (`omitKey`).
  JS numbers are modelled as integers: the dialog never computes with them.
* `Array.prototype.reduce` is a left fold; it is modelled by structural
  recursion (`matchGo`) and `List.foldl` (`computeEntities`).
* `Array.prototype.sort` is stable (ES2019).  For the comparator
  `(nameA, nameB) => valueB - valueA` — a consistent comparator when the
  priorities are pure — the stable sort result is the stable descending
  sort by priority, modelled with `List.insertionSort` and the relation
  `fun a b => prio b ≤ prio a`.
* The brain (conversation store) and the adapter are external; a turn is
  modelled as a pure function returning the sequence of rendered view keys,
  the value written back to the store, and the next status (`ExecResult`).
-/

namespace PromptDialog

/-- Model of a JavaScript value, as far as the dialog code observes values. -/
inductive JsVal where
  | undef : JsVal
  | null : JsVal
  | bool : Bool → JsVal
  | num : Int → JsVal
  | str : String → JsVal
  | arr : List JsVal → JsVal
  | obj : List (String × JsVal) → JsVal

/-- The strict-equality test `v === undefined`. -/
def isUndefined : JsVal → Bool
  | JsVal.undef => true
  | _ => false

/-- JS truthiness: undefined, null, false, 0 and "" are falsy; every array
and object is truthy.  (NaN is not representable in the integer model.) -/
def jsTruthy : JsVal → Bool
  | JsVal.undef => false
  | JsVal.null => false
  | JsVal.bool b => b
  | JsVal.num n => n != 0
  | JsVal.str s => s != ""
  | JsVal.arr _ => true
  | JsVal.obj _ => true

/-- A map of JS entity values keyed by entity name (`dialogEntities`,
`matchedEntities`). -/
abbrev EntMap := List (String × JsVal)

/-- First-match key lookup in the association-list model of a JS object. -/
def objLookup {α : Type} : List (String × α) → String → Option α
  | [], _ => none
  | (k, v) :: rest, n => if k = n then some v else objLookup rest n

/-- JS property read `m[n]` on a plain object: `undefined` when absent. -/
def objGet (m : EntMap) (n : String) : JsVal :=
  (objLookup m n).getD JsVal.undef

/-- JS object-spread update `{...m, [key]: v}`: an existing key keeps its
position and gets the new value; a fresh key is appended. -/
def objSet {α : Type} : List (String × α) → String → α → List (String × α)
  | [], key, v => [(key, v)]
  | (k, w) :: rest, key, v =>
    if k = key then (k, v) :: rest else (k, w) :: objSet rest key v

/-- lodash `omit(m, [key])`: the object without that key. -/
def omitKey {α : Type} : List (String × α) → String → List (String × α)
  | [], _ => []
  | (k, v) :: rest, key =>
    if k = key then omitKey rest key else (k, v) :: omitKey rest key

/-- `Object.keys`. -/
def objKeys {α : Type} (m : List (String × α)) : List String := m.map Prod.fst

/-- JS property read `v[k]` for the case the dialog exercises: reading a
field of a plain object.  A read on a non-object value yields undefined
here; the dialog only ever reads fields of the objects it is handed
(reading a field of null/undefined would throw in JS, and no modelled code
path does so on the inputs stated in the theorems below). -/
def jsGetField (v : JsVal) (k : String) : JsVal :=
  match v with
  | JsVal.obj kvs => objGet kvs k
  | _ => JsVal.undef

/-- A raw candidate entity extracted from a message.  Source fields:
`dim`, `body`, `start`, `end`, `values`. -/
structure Candidate where
  dim : String
  body : String
  start : Int
  «end» : Int
  values : List JsVal

/-- The candidate as the JS object handed to reducers; the default reducer
stores the raw candidate itself as the matched value. -/
def Candidate.toVal (c : Candidate) : JsVal :=
  JsVal.obj [("dim", JsVal.str c.dim), ("body", JsVal.str c.body),
    ("start", JsVal.num c.start), ("end", JsVal.num c.«end»),
    ("values", JsVal.arr c.values)]

/-- `priority`: a Number, or a niladic Function returning a Number. -/
inductive PriorityVal where
  | num : Int → PriorityVal
  | fn : (Unit → Int) → PriorityVal

/-- `typeof priority` check: a function priority is invoked, a numeric one is used as is. -/
def evalPriority : PriorityVal → Int
  | PriorityVal.num n => n
  | PriorityVal.fn f => f ()

/-- An entity parameter after the defaults of computeEntities are applied. -/
structure Parameter where
  dim : String
  priority : PriorityVal
  isFulfilled : JsVal → JsVal → Bool
  reducer : JsVal → Candidate → JsVal

/-- An entity parameter as configured by the dialog author; absent fields
are filled in by computeEntities. -/
structure ParameterSpec where
  dim : String
  priority : Option PriorityVal := none
  isFulfilled? : Option (JsVal → JsVal → Bool) := none
  reducer? : Option (JsVal → Candidate → JsVal) := none

/-- The configured parameters map of a dialog. -/
abbrev SpecMap := List (String × ParameterSpec)

/-- A map of normalized parameters (`parameters`, `missingEntities`). -/
abbrev ParamMap := List (String × Parameter)

/-- Default reducer: `(oldEntities, newEntities) => newEntities` — replace
the old entities by the new ones. -/
def defaultReducer : JsVal → Candidate → JsVal := fun _ c => c.toVal

/-- Default isFulfilled: `entity => entity !== undefined`. -/
def defaultIsFulfilled : JsVal → JsVal → Bool := fun entity _ => !(isUndefined entity)

/-- Apply the computeEntities defaults to one parameter spec
(`{ reducer: ..., isFulfilled: ..., priority: 0, ...dialogParameters[name] }`). -/
def normalizeParameter (s : ParameterSpec) : Parameter :=
  { dim := s.dim
    priority := s.priority.getD (PriorityVal.num 0)
    isFulfilled := s.isFulfilled?.getD defaultIsFulfilled
    reducer := s.reducer?.getD defaultReducer }

/-- The defaults-applying reduce at the top of computeEntities; key order is
preserved (`Object.keys` insertion order). -/
def normalizeParameters (m : SpecMap) : ParamMap :=
  m.map (fun kv => (kv.1, normalizeParameter kv.2))

/-- `(entityA, entityB) => entityA.start === entityB.start && entityA.end === entityB.end`. -/
def areEntitiesPositionsEqual (entityA entityB : Candidate) : Bool :=
  entityA.start == entityB.start && entityA.«end» == entityB.«end»

/-- `(entities, entity) => entities.filter(e => !areEntitiesPositionsEqual(e, entity))`. -/
def filterSamePositionEntities (entities : List Candidate) (entity : Candidate) : List Candidate :=
  entities.filter (fun e => !areEntitiesPositionsEqual e entity)

/-- The `{ remainingCandidates, newValue }` accumulator and result of
matchParameterWithCandidates. -/
structure MatchResult where
  newValue : JsVal
  remainingCandidates : List Candidate

/-- The reduce inside matchParameterWithCandidates, as a left fold over the
dimension-filtered candidates.  `isFulfilled` is called with a single
argument there, so its context argument is undefined. -/
def matchGo (parameter : Parameter) : List Candidate → JsVal → List Candidate → MatchResult
  | [], newValue, remainingCandidates => ⟨newValue, remainingCandidates⟩
  | candidate :: todo, newValue, remainingCandidates =>
    if parameter.isFulfilled newValue JsVal.undef then
      matchGo parameter todo newValue remainingCandidates
    else
      matchGo parameter todo (parameter.reducer newValue candidate)
        (filterSamePositionEntities remainingCandidates candidate)

/-- `matchParameterWithCandidates({parameter, candidates, initialValue})`:
filter the candidates by the dimension of the parameter, then fold, starting
from the full candidate list as remaining pool. -/
def matchParameterWithCandidates (parameter : Parameter) (candidates : List Candidate)
    (initialValue : JsVal) : MatchResult :=
  matchGo parameter (candidates.filter (fun c => c.dim == parameter.dim)) initialValue candidates

/-- Observer over the same fold: the candidates the reducer branch was
applied to (the candidates consumed by this parameter).  The branch taken
at each step depends only on the evolving `newValue`, so this mirrors
`matchGo` exactly. -/
def consumedGo (parameter : Parameter) : List Candidate → JsVal → List Candidate
  | [], _ => []
  | candidate :: todo, newValue =>
    if parameter.isFulfilled newValue JsVal.undef then
      consumedGo parameter todo newValue
    else
      candidate :: consumedGo parameter todo (parameter.reducer newValue candidate)

/-- The candidates consumed by one matchParameterWithCandidates call. -/
def consumedCandidates (parameter : Parameter) (candidates : List Candidate)
    (initialValue : JsVal) : List Candidate :=
  consumedGo parameter (candidates.filter (fun c => c.dim == parameter.dim)) initialValue

/-- The computed member access `dialogEntities[parameters]` in the filter of
computeEntities: `parameters` is an object, and JS coerces an object used as
a computed key to the string "[object Object]". -/
def objectToStringKey : String := "[object Object]"

/-- The `{ dialogEntities }` context object passed to isFulfilled by
computeEntities. -/
def ctxVal (dialogEntities : EntMap) : JsVal :=
  JsVal.obj [("dialogEntities", JsVal.obj dialogEntities)]

/-- `parameters[name]`.  Inside computeEntities, `name` always ranges over
`Object.keys(parameters)`, so the lookup always succeeds; a missing key
would throw in JS and falls back to an inert parameter here. -/
def getParam (parameters : ParamMap) (name : String) : Parameter :=
  (objLookup parameters name).getD
    { dim := "", priority := PriorityVal.num 0,
      isFulfilled := defaultIsFulfilled, reducer := defaultReducer }

/-- The stable descending sort by priority performed by
`.sort((nameA, nameB) => valueB - valueA)`. -/
def sortByPriorityDesc (prio : String → Int) (names : List String) : List String :=
  List.insertionSort (fun nameA nameB => prio nameB ≤ prio nameA) names

/-- The filter-then-sort of computeEntities: the names processed by the
resolution pass, in processing order.  The filter drops a name when
`parameters[name].isFulfilled(dialogEntities[parameters], { dialogEntities })`
holds, reading `dialogEntities` at the coerced key "[object Object]". -/
def processedNames (parameters : ParamMap) (dialogEntities : EntMap) : List String :=
  sortByPriorityDesc (fun name => evalPriority (getParam parameters name).priority)
    ((objKeys parameters).filter (fun name =>
      !(getParam parameters name).isFulfilled (objGet dialogEntities objectToStringKey)
        (ctxVal dialogEntities)))

/-- The accumulator of the reduce in computeEntities. -/
structure ComputeState where
  matchedEntities : EntMap
  remainingCandidates : List Candidate
  missingEntities : ParamMap

/-- One step of the reduce in computeEntities: match the parameter against
the remaining pool starting from `dialogEntities[name]`, store the new
value under the name, thread the shrunk pool, and drop the name from
missingEntities when the post-match value is fulfilled. -/
def computeStep (parameters : ParamMap) (dialogEntities : EntMap)
    (st : ComputeState) (name : String) : ComputeState :=
  let parameter := getParam parameters name
  let m := matchParameterWithCandidates parameter st.remainingCandidates (objGet dialogEntities name)
  let isF := parameter.isFulfilled m.newValue (ctxVal dialogEntities)
  { matchedEntities := objSet st.matchedEntities name m.newValue
    remainingCandidates := m.remainingCandidates
    missingEntities := if isF then omitKey st.missingEntities name else st.missingEntities }

/-- The `{ matchedEntities, missingEntities }` result of computeEntities. -/
structure ComputeResult where
  matchedEntities : EntMap
  missingEntities : ParamMap

/-- `computeEntities(candidates, dialogParameters, dialogEntities = {})`. -/
def computeEntities (candidates : List Candidate) (dialogParameters : SpecMap)
    (dialogEntities : EntMap := []) : ComputeResult :=
  let parameters := normalizeParameters dialogParameters
  let result := (processedNames parameters dialogEntities).foldl
    (computeStep parameters dialogEntities)
    { matchedEntities := dialogEntities, remainingCandidates := candidates,
      missingEntities := parameters }
  { matchedEntities := result.matchedEntities, missingEntities := result.missingEntities }

/-- The per-parameter inputs of a resolution pass, in processing order:
`(parameters[name], dialogEntities[name])` for each processed name. -/
def passSteps (parameters : ParamMap) (dialogEntities : EntMap) : List (Parameter × JsVal) :=
  (processedNames parameters dialogEntities).map
    (fun name => (getParam parameters name, objGet dialogEntities name))

/-- Per-parameter consumed candidates along a resolution pass, threading the
remaining pool through `matchParameterWithCandidates` exactly as the reduce
of computeEntities does. -/
def passConsumed : List (Parameter × JsVal) → List Candidate → List (List Candidate)
  | [], _ => []
  | (p, v) :: rest, pool =>
    consumedCandidates p pool v ::
      passConsumed rest (matchParameterWithCandidates p pool v).remainingCandidates

/-- The dialog status constants. -/
inductive Status where
  | blocked
  | waiting
  | ready
  | completed
  | discarded
deriving DecidableEq

/-- The observable outcome of one turn: the view keys rendered in order,
the matched-entities value written to the brain (if any), and the returned
status. -/
structure ExecResult where
  renders : List String
  stored : Option EntMap
  status : Status

/-- The property read `missingEntities.length`: missingEntities is a plain
object built by object spread and lodash omit, not an array, so it has no
`length` own-property and the read yields undefined. -/
def missingEntitiesLength (_missingEntities : ParamMap) : JsVal := JsVal.undef

/-- Strict equality `x === 0`: true only for the number 0. -/
def jsStrictEqZero : JsVal → Bool
  | JsVal.num n => n == 0
  | _ => false

/-- The completion test `missingEntities.length === 0` in executeWhenReady. -/
def missingLengthIsZero (missingEntities : ParamMap) : Bool :=
  jsStrictEqZero (missingEntitiesLength missingEntities)

/-- `executeWhenCompleted`: no render, returns status COMPLETED. -/
def executeWhenCompleted : ExecResult :=
  { renders := [], stored := none, status := Status.completed }

/-- `executeWhenReady`: load the prior entities (`(await conversationGet) || {}`,
modelled by the optional stored value defaulting to the empty map), resolve,
persist the matched entities, render the "entities" view, then branch on
`missingEntities.length === 0`. -/
def executeWhenReady (entities : SpecMap) (stored : Option EntMap)
    (candidates : List Candidate) : ExecResult :=
  let dialogEntities := stored.getD []
  let r := computeEntities candidates entities dialogEntities
  if missingLengthIsZero r.missingEntities then
    { renders := ["entities"] ++ executeWhenCompleted.renders,
      stored := some r.matchedEntities,
      status := executeWhenCompleted.status }
  else
    { renders := ["entities"], stored := some r.matchedEntities, status := Status.ready }

/-- `candidate.values[0].value`.  When `values` is empty the JS code would
throw a TypeError reading `.value` of undefined; the model yields undefined
there, and every theorem below exercises only candidates with a nonempty
`values` list. -/
def candidateFirstValue (c : Candidate) : JsVal :=
  match c.values with
  | [] => JsVal.undef
  | v :: _ => jsGetField v "value"

/-- `executeWhenWaiting`: scan the candidates for the first one with
dimension "system:boolean"; on a truthy first value render "confirm" and
fall through to executeWhenReady with the same candidates, on a falsy one
render "discard" and return DISCARDED; with no boolean candidate return
BLOCKED without rendering. -/
def executeWhenWaiting (entities : SpecMap) (stored : Option EntMap)
    (candidates : List Candidate) : ExecResult :=
  match candidates.find? (fun candidate => candidate.dim == "system:boolean") with
  | some candidate =>
    if jsTruthy (candidateFirstValue candidate) then
      let r := executeWhenReady entities stored candidates
      { renders := "confirm" :: r.renders, stored := r.stored, status := r.status }
    else
      { renders := ["discard"], stored := none, status := Status.discarded }
  | none => { renders := [], stored := none, status := Status.blocked }

/-- `executeWhenBlocked`: render "ask", return WAITING. -/
def executeWhenBlocked (_candidates : List Candidate) : ExecResult :=
  { renders := ["ask"], stored := none, status := Status.waiting }

/-- `execute`: dispatch on the current status; every status other than
BLOCKED and WAITING falls into the READY handling. -/
def execute (entities : SpecMap) (stored : Option EntMap)
    (candidates : List Candidate) : Status → ExecResult
  | Status.blocked => executeWhenBlocked candidates
  | Status.waiting => executeWhenWaiting entities stored candidates
  | _ => executeWhenReady entities stored candidates

/-- The candidate of the scenario in the spec: `{dimension:"city", text:"Paris",
start:13, end:18, values:[{type:"string", value:"Paris"}]}`. -/
def parisCandidate : Candidate :=
  { dim := "city", body := "Paris", start := 13, «end» := 18,
    values := [JsVal.obj [("type", JsVal.str "string"), ("value", JsVal.str "Paris")]] }

/-- The parameters map of the scenario in the spec: `{destination: {dim:"city"}}`. -/
def destinationParameters : SpecMap := [("destination", { dim := "city" })]

/-- A truthy boolean confirmation candidate. -/
def confirmCandidate : Candidate :=
  { dim := "system:boolean", body := "yes", start := 0, «end» := 3,
    values := [JsVal.obj [("value", JsVal.bool true)]] }

/-- A falsy boolean confirmation candidate. -/
def declineCandidate : Candidate :=
  { dim := "system:boolean", body := "no", start := 0, «end» := 2,
    values := [JsVal.obj [("value", JsVal.bool false)]] }

/-- A city parameter left entirely to the computeEntities defaults. -/
def cityDefaultParameter : Parameter := normalizeParameter { dim := "city" }

/-- A city parameter whose configured reducer always yields undefined, as a
dialog author may write; exercises the reducer-output path of the matcher. -/
def undefReducerParameter : Parameter :=
  normalizeParameter { dim := "city", reducer? := some (fun _ _ => JsVal.undef) }

theorem objLookup_objSet {α : Type} (m : List (String × α)) (key n : String) (v : α) :
    objLookup (objSet m key v) n = if key = n then some v else objLookup m n := by
  induction m with
  | nil =>
    by_cases hn : key = n <;> simp [objSet, objLookup, hn]
  | cons kv rest ih =>
    obtain ⟨k, w⟩ := kv
    by_cases hk : k = key
    · subst hk
      by_cases hn : k = n <;> simp [objSet, objLookup, hn]
    · simp only [objSet, if_neg hk, objLookup, ih]
      by_cases hn : key = n
      · subst hn
        simp [hk]
      · simp [hn]

theorem objLookup_objSet_self {α : Type} (m : List (String × α)) (key : String) (v : α) :
    objLookup (objSet m key v) key = some v := by
  rw [objLookup_objSet]; simp

theorem objLookup_objSet_ne {α : Type} (m : List (String × α)) {key n : String} (v : α)
    (h : key ≠ n) : objLookup (objSet m key v) n = objLookup m n := by
  rw [objLookup_objSet]; simp [h]

theorem objGet_objSet_self (m : EntMap) (key : String) (v : JsVal) :
    objGet (objSet m key v) key = v := by
  simp [objGet, objLookup_objSet_self]

theorem objGet_objSet_ne (m : EntMap) {key n : String} (v : JsVal) (h : key ≠ n) :
    objGet (objSet m key v) n = objGet m n := by
  simp [objGet, objLookup_objSet_ne m v h]

theorem objLookup_omitKey {α : Type} (m : List (String × α)) (key n : String) :
    objLookup (omitKey m key) n = if key = n then none else objLookup m n := by
  induction m with
  | nil =>
    by_cases hn : key = n <;> simp [omitKey, objLookup, hn]
  | cons kv rest ih =>
    obtain ⟨k, w⟩ := kv
    by_cases hk : k = key
    · subst hk
      by_cases hn : k = n
      · subst hn; simp [omitKey, ih]
      · simp [omitKey, objLookup, hn, ih]
    · simp only [omitKey, if_neg hk, objLookup, ih]
      by_cases hn : k = n
      · subst hn
        have : key ≠ k := fun h => hk h.symm
        simp [this]
      · simp [hn]

theorem objLookup_omitKey_ne {α : Type} (m : List (String × α)) {key n : String}
    (h : key ≠ n) : objLookup (omitKey m key) n = objLookup m n := by
  rw [objLookup_omitKey]; simp [h]

theorem objLookup_none_iff {α : Type} (m : List (String × α)) (n : String) :
    objLookup m n = none ↔ n ∉ objKeys m := by
  induction m with
  | nil => simp [objLookup, objKeys]
  | cons kv rest ih =>
    obtain ⟨k, w⟩ := kv
    by_cases hk : k = n
    · subst hk; simp [objLookup, objKeys]
    · simp [objLookup, hk, objKeys, ih, Ne.symm hk]

theorem mem_objKeys_of_objLookup {α : Type} {m : List (String × α)} {n : String} {v : α}
    (h : objLookup m n = some v) : n ∈ objKeys m := by
  by_contra hmem
  rw [← objLookup_none_iff] at hmem
  rw [h] at hmem
  exact Option.noConfusion hmem

theorem objLookup_normalize (m : SpecMap) (n : String) :
    objLookup (normalizeParameters m) n = (objLookup m n).map normalizeParameter := by
  induction m with
  | nil => simp [normalizeParameters, objLookup]
  | cons kv rest ih =>
    obtain ⟨k, s⟩ := kv
    by_cases hk : k = n
    · simp [normalizeParameters, objLookup, hk]
    · simp only [normalizeParameters, List.map_cons, objLookup, if_neg hk]
      simpa [normalizeParameters] using ih

theorem objKeys_normalize (m : SpecMap) : objKeys (normalizeParameters m) = objKeys m := by
  simp [normalizeParameters, objKeys]

theorem matchGo_mem_remaining (p : Parameter) :
    ∀ (todo : List Candidate) (v : JsVal) (rem : List Candidate) (e : Candidate),
      e ∈ (matchGo p todo v rem).remainingCandidates → e ∈ rem := by
  intro todo
  induction todo with
  | nil => intro v rem e h; simpa [matchGo] using h
  | cons c todo ih =>
    intro v rem e h
    rw [matchGo] at h
    by_cases hf : p.isFulfilled v JsVal.undef
    · rw [if_pos hf] at h
      exact ih v rem e h
    · rw [if_neg hf] at h
      have := ih (p.reducer v c) (filterSamePositionEntities rem c) e h
      exact (List.mem_filter.mp this).1

theorem consumedGo_not_in_remaining (p : Parameter) :
    ∀ (todo : List Candidate) (v : JsVal) (rem : List Candidate) (c : Candidate),
      c ∈ consumedGo p todo v →
      ∀ e ∈ (matchGo p todo v rem).remainingCandidates, areEntitiesPositionsEqual e c = false := by
  intro todo
  induction todo with
  | nil => intro v rem c hc; simp [consumedGo] at hc
  | cons d todo ih =>
    intro v rem c hc e he
    rw [consumedGo] at hc
    rw [matchGo] at he
    by_cases hf : p.isFulfilled v JsVal.undef
    · rw [if_pos hf] at hc
      rw [if_pos hf] at he
      exact ih v rem c hc e he
    · rw [if_neg hf] at hc
      rw [if_neg hf] at he
      rcases List.mem_cons.mp hc with hcd | hayr
      · subst hcd
        have hmem := matchGo_mem_remaining p todo (p.reducer v c)
          (filterSamePositionEntities rem c) e he
        have := (List.mem_filter.mp hmem).2
        simpa using this
      · exact ih (p.reducer v d) (filterSamePositionEntities rem d) c hayr e he

theorem consumedCandidates_mem (p : Parameter) (cs : List Candidate) (v : JsVal) :
    ∀ c ∈ consumedCandidates p cs v, c ∈ cs := by
  intro c hc
  have : ∀ (todo : List Candidate) (w : JsVal), c ∈ consumedGo p todo w → c ∈ todo := by
    intro todo
    induction todo with
    | nil => intro w h; simp [consumedGo] at h
    | cons d todo ih =>
      intro w h
      rw [consumedGo] at h
      by_cases hf : p.isFulfilled w JsVal.undef
      · rw [if_pos hf] at h
        exact List.mem_cons_of_mem d (ih w h)
      · rw [if_neg hf] at h
        rcases List.mem_cons.mp h with hcd | hrest
        · exact hcd ▸ List.mem_cons_self d todo
        · exact List.mem_cons_of_mem d (ih (p.reducer w d) hrest)
  have hmem := this _ v hc
  exact (List.mem_filter.mp hmem).1

theorem matchParameter_remaining_mem (p : Parameter) (cs : List Candidate) (v : JsVal) :
    ∀ e ∈ (matchParameterWithCandidates p cs v).remainingCandidates, e ∈ cs := by
  intro e he
  exact matchGo_mem_remaining p _ v cs e he

theorem matchGo_fulfilled (p : Parameter) {v : JsVal}
    (h : p.isFulfilled v JsVal.undef = true) :
    ∀ (todo : List Candidate) (rem : List Candidate), matchGo p todo v rem = ⟨v, rem⟩ := by
  intro todo
  induction todo with
  | nil => intro rem; rfl
  | cons c todo ih => intro rem; rw [matchGo, if_pos h]; exact ih rem

theorem consumedGo_fulfilled (p : Parameter) {v : JsVal}
    (h : p.isFulfilled v JsVal.undef = true) :
    ∀ todo : List Candidate, consumedGo p todo v = [] := by
  intro todo
  induction todo with
  | nil => rfl
  | cons c todo ih => rw [consumedGo, if_pos h]; exact ih

theorem passConsumed_mem_pool :
    ∀ (steps : List (Parameter × JsVal)) (pool : List Candidate) (l : List Candidate),
      l ∈ passConsumed steps pool → ∀ c ∈ l, c ∈ pool := by
  intro steps
  induction steps with
  | nil => intro pool l hl; simp [passConsumed] at hl
  | cons pv rest ih =>
    obtain ⟨p, v⟩ := pv
    intro pool l hl c hc
    rw [passConsumed] at hl
    rcases List.mem_cons.mp hl with hhead | htail
    · subst hhead
      exact consumedCandidates_mem p pool v c hc
    · have := ih _ l htail c hc
      exact matchParameter_remaining_mem p pool v c this

theorem passConsumed_pairwise (steps : List (Parameter × JsVal)) (pool : List Candidate) :
    List.Pairwise
      (fun l1 l2 => ∀ c ∈ l1, ∀ c2 ∈ l2, areEntitiesPositionsEqual c2 c = false)
      (passConsumed steps pool) := by
  induction steps generalizing pool with
  | nil => exact List.Pairwise.nil
  | cons pv rest ih =>
    obtain ⟨p, v⟩ := pv
    rw [passConsumed]
    refine List.Pairwise.cons ?_ (ih _)
    intro l hl c hc c2 hc2
    have hc2rem : c2 ∈ (matchParameterWithCandidates p pool v).remainingCandidates :=
      passConsumed_mem_pool rest _ l hl c2 hc2
    exact consumedGo_not_in_remaining p _ v pool c hc c2 hc2rem

theorem isUndefined_eq_true (v : JsVal) : isUndefined v = true ↔ v = JsVal.undef := by
  cases v <;> simp [isUndefined]

theorem foldl_computeStep_frame (parameters : ParamMap) (dE : EntMap) (name : String) :
    ∀ (names : List String) (st : ComputeState), name ∉ names →
      objLookup ((names.foldl (computeStep parameters dE) st).matchedEntities) name
        = objLookup st.matchedEntities name ∧
      objLookup ((names.foldl (computeStep parameters dE) st).missingEntities) name
        = objLookup st.missingEntities name := by
  intro names
  induction names with
  | nil => intro st _; exact ⟨rfl, rfl⟩
  | cons n rest ih =>
    intro st hmem
    have hn : n ≠ name := by
      intro h
      exact hmem (h ▸ List.mem_cons_self n rest)
    have hrest : name ∉ rest := fun h => hmem (List.mem_cons_of_mem _ h)
    rw [List.foldl_cons]
    obtain ⟨h1, h2⟩ := ih (computeStep parameters dE st n) hrest
    refine ⟨?_, ?_⟩
    · rw [h1]
      simp only [computeStep]
      exact objLookup_objSet_ne _ _ hn
    · rw [h2]
      simp only [computeStep]
      split
      · exact objLookup_omitKey_ne _ hn
      · rfl

theorem foldl_computeStep_matched_isSome (parameters : ParamMap) (dE : EntMap) :
    ∀ (names : List String) (st : ComputeState) (name : String),
      (objLookup st.matchedEntities name).isSome = true →
      (objLookup ((names.foldl (computeStep parameters dE) st).matchedEntities) name).isSome = true := by
  intro names
  induction names with
  | nil => intro st name h; exact h
  | cons n rest ih =>
    intro st name h
    rw [List.foldl_cons]
    apply ih
    simp only [computeStep]
    rw [objLookup_objSet]
    by_cases hn : n = name
    · simp [hn]
    · simp only [if_neg hn]
      exact h

theorem mem_sortByPriorityDesc (prio : String → Int) (names : List String) (n : String) :
    n ∈ sortByPriorityDesc prio names ↔ n ∈ names := by
  unfold sortByPriorityDesc
  exact List.mem_insertionSort _

theorem nodup_sortByPriorityDesc (prio : String → Int) {names : List String}
    (h : names.Nodup) : (sortByPriorityDesc prio names).Nodup :=
  (List.perm_insertionSort _ names).nodup_iff.mpr h

theorem sortByPriorityDesc_const (prio : String → Int) (P : Int) :
    ∀ names : List String, (∀ n ∈ names, prio n = P) → sortByPriorityDesc prio names = names := by
  intro names
  induction names with
  | nil => intro _; rfl
  | cons a l ih =>
    intro h
    unfold sortByPriorityDesc at ih ⊢
    rw [List.insertionSort_cons]
    · rw [ih (fun n hn => h n (List.mem_cons_of_mem a hn))]
    · intro b hb
      rw [h a (List.mem_cons_self a l), h b (List.mem_cons_of_mem a hb)]

theorem computeStep_empty_pool (parameters : ParamMap) (dE : EntMap) (st : ComputeState)
    (n0 : String) (hpool : st.remainingCandidates = []) :
    computeStep parameters dE st n0 =
      { matchedEntities := objSet st.matchedEntities n0 (objGet dE n0)
        remainingCandidates := []
        missingEntities :=
          if (getParam parameters n0).isFulfilled (objGet dE n0) (ctxVal dE)
          then omitKey st.missingEntities n0 else st.missingEntities } := by
  unfold computeStep
  rw [hpool]
  rfl

theorem foldl_computeStep_no_candidates (parameters : ParamMap) (dE : EntMap) :
    ∀ (names : List String) (st : ComputeState),
      st.remainingCandidates = [] →
      (∀ n v, objLookup dE n = some v → objLookup st.matchedEntities n = some v) →
      (∀ n p, objLookup parameters n = some p →
        p.isFulfilled (objGet dE n) (ctxVal dE) = false →
        objLookup st.missingEntities n = objLookup parameters n) →
      (∀ n v, objLookup dE n = some v →
        objLookup ((names.foldl (computeStep parameters dE) st).matchedEntities) n = some v) ∧
      (∀ n p, objLookup parameters n = some p →
        p.isFulfilled (objGet dE n) (ctxVal dE) = false →
        objLookup ((names.foldl (computeStep parameters dE) st).missingEntities) n
          = objLookup parameters n) := by
  intro names
  induction names with
  | nil => intro st _ hm hmis; exact ⟨hm, hmis⟩
  | cons n0 rest ih =>
    intro st hpool hm hmis
    rw [List.foldl_cons, computeStep_empty_pool parameters dE st n0 hpool]
    apply ih
    · rfl
    · intro n v hv
      show objLookup (objSet st.matchedEntities n0 (objGet dE n0)) n = some v
      rw [objLookup_objSet]
      by_cases h0 : n0 = n
      · subst h0
        simp [objGet, hv]
      · rw [if_neg h0]
        exact hm n v hv
    · intro n p hp hf
      show objLookup
        (if (getParam parameters n0).isFulfilled (objGet dE n0) (ctxVal dE)
         then omitKey st.missingEntities n0 else st.missingEntities) n = objLookup parameters n
      by_cases h0 : n0 = n
      · subst h0
        have hg : getParam parameters n0 = p := by
          simp [getParam, hp]
        rw [hg, hf]
        simp only [Bool.false_eq_true, if_false]
        exact hmis n0 p hp hf
      · split
        · rw [objLookup_omitKey_ne _ h0]
          exact hmis n p hp hf
        · exact hmis n p hp hf

theorem foldl_default_missing_iff (parameters : ParamMap) (dE : EntMap) (name : String)
    (hdef : (getParam parameters name).isFulfilled = defaultIsFulfilled) :
    ∀ (names : List String) (st : ComputeState), names.Nodup → name ∈ names →
      (objLookup st.missingEntities name).isSome = true →
      ((objLookup ((names.foldl (computeStep parameters dE) st).missingEntities) name).isSome = true
        ↔ objGet ((names.foldl (computeStep parameters dE) st).matchedEntities) name = JsVal.undef) := by
  intro names
  induction names with
  | nil => intro st _ hmem; simp at hmem
  | cons n0 rest ih =>
    intro st hnd hmem hsome
    rw [List.foldl_cons]
    by_cases h0 : n0 = name
    · subst h0
      have hrest : n0 ∉ rest := (List.nodup_cons.mp hnd).1
      obtain ⟨hmfr, hmisfr⟩ := foldl_computeStep_frame parameters dE n0 rest
        (computeStep parameters dE st n0) hrest
      rw [show objGet ((rest.foldl (computeStep parameters dE) (computeStep parameters dE st n0)).matchedEntities) n0
            = objGet (computeStep parameters dE st n0).matchedEntities n0 by
          simp [objGet, hmfr]]
      rw [hmisfr]
      simp only [computeStep, hdef]
      rw [objGet_objSet_self]
      set w := (matchParameterWithCandidates (getParam parameters n0) st.remainingCandidates
        (objGet dE n0)).newValue with hw
      by_cases hu : isUndefined w = true
      · have hwu : w = JsVal.undef := (isUndefined_eq_true w).mp hu
        simp only [defaultIsFulfilled, hu, Bool.not_true, Bool.false_eq_true, if_false]
        simp [hsome, hwu]
      · have hwu : ¬ w = JsVal.undef := fun h => hu ((isUndefined_eq_true w).mpr h)
        have hu' : isUndefined w = false := by
          cases hx : isUndefined w
          · rfl
          · exact absurd hx hu
        simp only [defaultIsFulfilled, hu', Bool.not_false, if_true]
        rw [objLookup_omitKey]
        simp [hwu]
    · have hname : name ∈ rest := by
        rcases List.mem_cons.mp hmem with h | h
        · exact absurd h.symm h0
        · exact h
      apply ih (computeStep parameters dE st n0) (List.nodup_cons.mp hnd).2 hname
      simp only [computeStep]
      split
      · rw [objLookup_omitKey_ne _ h0]
        exact hsome
      · exact hsome

theorem matchParameter_nil (p : Parameter) (v : JsVal) :
    matchParameterWithCandidates p [] v = ⟨v, []⟩ := rfl

theorem matchParameter_default_single (p : Parameter) (c : Candidate)
    (hdim : (c.dim == p.dim) = true)
    (hnf : p.isFulfilled JsVal.undef JsVal.undef = false) :
    matchParameterWithCandidates p [c] JsVal.undef = ⟨p.reducer JsVal.undef c, []⟩ := by
  unfold matchParameterWithCandidates
  rw [show List.filter (fun x => x.dim == p.dim) [c] = [c] from by simp [hdim]]
  rw [matchGo, if_neg (by simp [hnf])]
  rw [show filterSamePositionEntities [c] c = [] from by
    simp [filterSamePositionEntities, areEntitiesPositionsEqual]]
  rfl

theorem computeStep_single_consume (params : ParamMap) (dE : EntMap) (st : ComputeState)
    (name : String) (c : Candidate)
    (hpool : st.remainingCandidates = [c])
    (hinit : objGet dE name = JsVal.undef)
    (hdim : (c.dim == (getParam params name).dim) = true)
    (hnf : (getParam params name).isFulfilled JsVal.undef JsVal.undef = false) :
    computeStep params dE st name =
      { matchedEntities := objSet st.matchedEntities name
          ((getParam params name).reducer JsVal.undef c)
        remainingCandidates := []
        missingEntities :=
          if (getParam params name).isFulfilled
              ((getParam params name).reducer JsVal.undef c) (ctxVal dE)
          then omitKey st.missingEntities name else st.missingEntities } := by
  simp only [computeStep]
  rw [hpool, hinit, matchParameter_default_single _ c hdim hnf]

/-- C1: the claim says executeWhenReady returns COMPLETED iff the
missingEntities mapping produced by the resolver is empty by key count, else READY.  The code tests
`missingEntities.length === 0` on a plain object, whose `length` is
undefined, so the test is always false: the returned status is READY for
every turn, even on the very scenario of the spec where missingEntities has zero
keys.  This theorem evaluates the code: the status is always READY, and at
the failing input the missing mapping is empty while READY ≠ COMPLETED. -/
theorem c1_ready_never_completed :
    (∀ (entities : SpecMap) (stored : Option EntMap) (candidates : List Candidate),
      (executeWhenReady entities stored candidates).status = Status.ready) ∧
    (computeEntities [parisCandidate] destinationParameters []).missingEntities = [] ∧
    Status.ready ≠ Status.completed := by
  refine ⟨fun entities stored candidates => rfl, rfl, by decide⟩

/-- C5 counterexample: in WAITING with an empty candidate list (so no
boolean candidate), the returned status is BLOCKED, not WAITING as the
claim states. -/
theorem c5_counterexample :
    (executeWhenWaiting [] none []).status = Status.blocked ∧
    Status.blocked ≠ Status.waiting := by
  exact ⟨rfl, by decide⟩

/-- C5 (amended): for every turn executed in WAITING whose candidate list
contains no candidate of dimension "system:boolean", the dialog performs no
render, writes nothing to the store, and returns status BLOCKED. -/
theorem c5_no_boolean_blocked (entities : SpecMap) (stored : Option EntMap)
    (candidates : List Candidate)
    (h : candidates.find? (fun candidate => candidate.dim == "system:boolean") = none) :
    executeWhenWaiting entities stored candidates =
      { renders := [], stored := none, status := Status.blocked } := by
  unfold executeWhenWaiting
  rw [h]

/-- Witness for c5_no_boolean_blocked at a concrete non-boolean candidate list. -/
theorem c5_no_boolean_blocked_witness :
    executeWhenWaiting [] none [parisCandidate] =
      { renders := [], stored := none, status := Status.blocked } :=
  c5_no_boolean_blocked [] none [parisCandidate] rfl

/-- C7: in WAITING with a boolean candidate present (the first candidate of
dimension "system:boolean"), a truthy first value renders "confirm" and
proceeds into the READY handling with the same candidates, and a falsy one
renders "discard" and returns DISCARDED. -/
theorem c7_waiting_boolean (entities : SpecMap) (stored : Option EntMap)
    (candidates : List Candidate) (c : Candidate)
    (hfind : candidates.find? (fun candidate => candidate.dim == "system:boolean") = some c) :
    (jsTruthy (candidateFirstValue c) = true →
      executeWhenWaiting entities stored candidates =
        { renders := "confirm" :: (executeWhenReady entities stored candidates).renders,
          stored := (executeWhenReady entities stored candidates).stored,
          status := (executeWhenReady entities stored candidates).status }) ∧
    (jsTruthy (candidateFirstValue c) = false →
      executeWhenWaiting entities stored candidates =
        { renders := ["discard"], stored := none, status := Status.discarded }) := by
  constructor
  · intro ht
    unfold executeWhenWaiting
    rw [hfind]
    simp [ht]
  · intro hf
    unfold executeWhenWaiting
    rw [hfind]
    simp [hf]

/-- Witness for c7_waiting_boolean on a concrete truthy confirmation. -/
theorem c7_waiting_boolean_witness :
    executeWhenWaiting [] none [confirmCandidate] =
      { renders := "confirm" :: (executeWhenReady [] none [confirmCandidate]).renders,
        stored := (executeWhenReady [] none [confirmCandidate]).stored,
        status := (executeWhenReady [] none [confirmCandidate]).status } :=
  (c7_waiting_boolean [] none [confirmCandidate] confirmCandidate rfl).1 rfl

/-- C9 counterexample: a parameter whose reducer yields undefined for a
consumed candidate leaves the accumulated value of the matcher undefined — it is
not normalized to null.  The candidate is consumed (it is in the consumed
list), the post-reduction value is undefined, and undefined ≠ null. -/
theorem c9_counterexample :
    (matchParameterWithCandidates undefReducerParameter [parisCandidate] JsVal.undef).newValue
        = JsVal.undef ∧
    consumedCandidates undefReducerParameter [parisCandidate] JsVal.undef = [parisCandidate] ∧
    JsVal.undef ≠ JsVal.null := by
  refine ⟨rfl, rfl, fun h => JsVal.noConfusion h⟩

/-- C9 (amended): the matcher stores the output of the reducer unchanged — when
the reducer yields undefined for the consumed candidate, the accumulated
value threaded to the rest of the fold is undefined (no normalization to
null occurs anywhere in the matcher). -/
theorem c9_reducer_unnormalized (p : Parameter) (c : Candidate) (todo rem : List Candidate)
    (v : JsVal) (hnf : p.isFulfilled v JsVal.undef = false)
    (hred : p.reducer v c = JsVal.undef) :
    matchGo p (c :: todo) v rem =
      matchGo p todo JsVal.undef (filterSamePositionEntities rem c) := by
  rw [matchGo, if_neg (by simp [hnf]), hred]

/-- Witness for c9_reducer_unnormalized at a concrete undefined-yielding reducer. -/
theorem c9_reducer_unnormalized_witness :
    matchGo undefReducerParameter [parisCandidate] JsVal.undef [parisCandidate] =
      matchGo undefReducerParameter [] JsVal.undef
        (filterSamePositionEntities [parisCandidate] parisCandidate) :=
  c9_reducer_unnormalized undefReducerParameter parisCandidate [] [parisCandidate]
    JsVal.undef rfl rfl

/-- C2 counterexample: parameter "destination" (dim "city", defaults) is
already fulfilled with the prior value "Nice"; one new candidate of the
same dimension arrives.  The resolver keeps the prior value — the new
candidate does not replace it, contradicting the claimed fulfilled-slot
override. -/
theorem c2_counterexample :
    objGet (computeEntities [parisCandidate] destinationParameters
        [("destination", JsVal.str "Nice")]).matchedEntities "destination" = JsVal.str "Nice" ∧
    JsVal.str "Nice" ≠ parisCandidate.toVal := by
  refine ⟨rfl, fun h => JsVal.noConfusion h⟩

/-- C2 (amended): a parameter whose prior value already satisfies
isFulfilled is still processed by the pass — the pre-match fulfillment
filter reads the prior-entities map at the coerced key "[object Object]"
rather than at the name of the parameter, so with the default isFulfilled (and
no such key stored) nothing is filtered out — but the matcher, finding the
initial value fulfilled, skips every candidate: the prior value is kept
unchanged, nothing is consumed, and no priority demotion happens. -/
theorem c2_fulfilled_keeps_value (p : Parameter) (cs : List Candidate) (v : JsVal)
    (hf : p.isFulfilled v JsVal.undef = true) (n d : String) (dE : EntMap)
    (hmagic : objGet dE objectToStringKey = JsVal.undef) :
    matchParameterWithCandidates p cs v = ⟨v, cs⟩ ∧
    consumedCandidates p cs v = [] ∧
    n ∈ processedNames (normalizeParameters [(n, { dim := d })]) dE := by
  refine ⟨?_, ?_, ?_⟩
  · unfold matchParameterWithCandidates
    exact matchGo_fulfilled p hf _ cs
  · unfold consumedCandidates
    exact consumedGo_fulfilled p hf _
  · unfold processedNames
    rw [mem_sortByPriorityDesc]
    simp [normalizeParameters, objKeys, getParam, objLookup, normalizeParameter,
      defaultIsFulfilled, hmagic, isUndefined]

/-- Witness for c2_fulfilled_keeps_value: the concrete fulfilled "destination"
slot with a fresh Paris candidate. -/
theorem c2_fulfilled_keeps_value_witness :
    matchParameterWithCandidates cityDefaultParameter [parisCandidate] (JsVal.str "Nice")
        = ⟨JsVal.str "Nice", [parisCandidate]⟩ ∧
    consumedCandidates cityDefaultParameter [parisCandidate] (JsVal.str "Nice") = [] ∧
    "destination" ∈ processedNames
      (normalizeParameters [("destination", { dim := "city" })])
      [("destination", JsVal.str "Nice")] :=
  c2_fulfilled_keeps_value cityDefaultParameter [parisCandidate] (JsVal.str "Nice") rfl
    "destination" "city" [("destination", JsVal.str "Nice")] rfl

/-- C6 counterexample: with the default isFulfilled, a parameter whose
resolved value is null is treated as fulfilled (`null !== undefined`), so
it is absent from missingEntities — the claim says null should count as
missing. -/
theorem c6_counterexample :
    defaultIsFulfilled JsVal.null JsVal.undef = true ∧
    objGet (computeEntities [] destinationParameters
        [("destination", JsVal.null)]).matchedEntities "destination" = JsVal.null ∧
    objLookup (computeEntities [] destinationParameters
        [("destination", JsVal.null)]).missingEntities "destination" = none := by
  exact ⟨rfl, rfl, rfl⟩

/-- C3: positional exclusivity of a resolution pass — along the pass
(parameters in processing order, the remaining pool threaded through
matchParameterWithCandidates exactly as computeEntities does), the
per-parameter consumed candidate lists are pairwise position-disjoint:
once some parameter consumes a span (start, end), no later-processed
parameter consumes a candidate with the identical span. -/
theorem c3_positional_exclusivity (candidates : List Candidate) (dialogParameters : SpecMap)
    (dialogEntities : EntMap) :
    List.Pairwise
      (fun l1 l2 => ∀ c ∈ l1, ∀ c2 ∈ l2, areEntitiesPositionsEqual c2 c = false)
      (passConsumed (passSteps (normalizeParameters dialogParameters) dialogEntities)
        candidates) :=
  passConsumed_pairwise _ candidates

/-- C8: resolving a turn with an empty candidate list never changes
matchedEntities — every prior entry keeps its value — and never removes a
name from missingEntities: every parameter whose prior value is unfulfilled
(per its normalized isFulfilled, evaluated with the context of this turn) is
still present in missingEntities after the pass. -/
theorem c8_empty_pool_noop (dialogParameters : SpecMap) (dialogEntities : EntMap) :
    (∀ name v, objLookup dialogEntities name = some v →
      objLookup (computeEntities [] dialogParameters dialogEntities).matchedEntities name
        = some v) ∧
    (∀ name p, objLookup (normalizeParameters dialogParameters) name = some p →
      p.isFulfilled (objGet dialogEntities name) (ctxVal dialogEntities) = false →
      (objLookup (computeEntities [] dialogParameters dialogEntities).missingEntities
        name).isSome = true) := by
  have h := foldl_computeStep_no_candidates (normalizeParameters dialogParameters) dialogEntities
    (processedNames (normalizeParameters dialogParameters) dialogEntities)
    { matchedEntities := dialogEntities, remainingCandidates := [],
      missingEntities := normalizeParameters dialogParameters }
    rfl (fun _ _ hv => hv) (fun _ _ _ _ => rfl)
  constructor
  · intro name v hv
    exact h.1 name v hv
  · intro name p hp hf
    have hmiss := h.2 name p hp hf
    show (objLookup ((_ : ComputeState).missingEntities) name).isSome = true
    rw [hmiss, hp]
    rfl

/-- Witness for c8_empty_pool_noop: an empty turn keeps the prior "Nice"
value and keeps the unfulfilled "destination" parameter missing. -/
theorem c8_empty_pool_noop_witness :
    objLookup (computeEntities [] destinationParameters
        [("destination", JsVal.str "Nice")]).matchedEntities "destination"
      = some (JsVal.str "Nice") ∧
    (objLookup (computeEntities [] destinationParameters []).missingEntities
        "destination").isSome = true :=
  ⟨(c8_empty_pool_noop destinationParameters [("destination", JsVal.str "Nice")]).1
      "destination" (JsVal.str "Nice") rfl,
    (c8_empty_pool_noop destinationParameters []).2 "destination"
      (normalizeParameter { dim := "city" }) rfl rfl⟩

/-- C10: computeEntities never deletes a previously matched entity — every
key of the prior dialogEntities map is still a key of the returned
matchedEntities — and a name that is not processed in this pass (absent
from the normalized parameter specs, or excluded by the pre-match
fulfillment filter) keeps exactly its prior value. -/
theorem c10_frame_effect (candidates : List Candidate) (dialogParameters : SpecMap)
    (dialogEntities : EntMap) (name : String) :
    ((objLookup dialogEntities name).isSome = true →
      (objLookup (computeEntities candidates dialogParameters dialogEntities).matchedEntities
        name).isSome = true) ∧
    ((objLookup (normalizeParameters dialogParameters) name = none ∨
        (getParam (normalizeParameters dialogParameters) name).isFulfilled
          (objGet dialogEntities objectToStringKey) (ctxVal dialogEntities) = true) →
      objLookup (computeEntities candidates dialogParameters dialogEntities).matchedEntities
        name = objLookup dialogEntities name) := by
  constructor
  · intro h
    exact foldl_computeStep_matched_isSome _ _ _ _ name h
  · intro h
    have hnot : name ∉ processedNames (normalizeParameters dialogParameters) dialogEntities := by
      unfold processedNames
      rw [mem_sortByPriorityDesc]
      intro hmem
      have hmem' := List.mem_filter.mp hmem
      rcases h with hnone | hful
      · exact (objLookup_none_iff _ name).mp hnone hmem'.1
      · have h2 := hmem'.2
        rw [hful] at h2
        simp at h2
    exact (foldl_computeStep_frame _ _ name _ _ hnot).1

/-- Witness for c10_frame_effect: a prior entity "z" outside the parameter
specs keeps its key and exact value through a pass with candidates. -/
theorem c10_frame_effect_witness :
    (objLookup (computeEntities [parisCandidate] destinationParameters
        [("z", JsVal.str "w")]).matchedEntities "z").isSome = true ∧
    objLookup (computeEntities [parisCandidate] destinationParameters
        [("z", JsVal.str "w")]).matchedEntities "z" = objLookup [("z", JsVal.str "w")] "z" :=
  ⟨(c10_frame_effect [parisCandidate] destinationParameters [("z", JsVal.str "w")] "z").1 rfl,
    (c10_frame_effect [parisCandidate] destinationParameters [("z", JsVal.str "w")] "z").2
      (Or.inl rfl)⟩

/-- C6 (amended): the default isFulfilled returns true iff the value is not
undefined (null counts as fulfilled), and a parameter relying on the
default isFulfilled is present in missingEntities after resolution iff its
resolved value is undefined — provided the prior-entities map has no entry
at the coerced key "[object Object]" read by the pre-match filter. -/
theorem c6_default_isfulfilled (dialogParameters : SpecMap) (dialogEntities : EntMap)
    (candidates : List Candidate) (name : String) (s : ParameterSpec)
    (hs : objLookup dialogParameters name = some s)
    (hdef : s.isFulfilled? = none)
    (hmagic : objGet dialogEntities objectToStringKey = JsVal.undef)
    (hnodup : (objKeys dialogParameters).Nodup) :
    (∀ v ctx, defaultIsFulfilled v ctx = true ↔ v ≠ JsVal.undef) ∧
    ((objLookup (computeEntities candidates dialogParameters dialogEntities).missingEntities
        name).isSome = true ↔
      objGet (computeEntities candidates dialogParameters dialogEntities).matchedEntities name
        = JsVal.undef) := by
  constructor
  · intro v ctx
    cases v <;> simp [defaultIsFulfilled, isUndefined]
  · have hlook : objLookup (normalizeParameters dialogParameters) name
        = some (normalizeParameter s) := by
      rw [objLookup_normalize, hs]
      rfl
    have hful : (getParam (normalizeParameters dialogParameters) name).isFulfilled
        = defaultIsFulfilled := by
      simp [getParam, hlook, normalizeParameter, hdef]
    have hmem : name ∈ processedNames (normalizeParameters dialogParameters) dialogEntities := by
      unfold processedNames
      rw [mem_sortByPriorityDesc]
      apply List.mem_filter.mpr
      refine ⟨mem_objKeys_of_objLookup hlook, ?_⟩
      rw [hful, hmagic]
      rfl
    have hnd : (processedNames (normalizeParameters dialogParameters) dialogEntities).Nodup := by
      apply nodup_sortByPriorityDesc
      apply List.Nodup.filter
      rw [objKeys_normalize]
      exact hnodup
    exact foldl_default_missing_iff _ _ name hful _ _ hnd hmem (by rw [hlook]; rfl)

/-- Witness for c6_default_isfulfilled: the default-configured "destination"
parameter over an empty prior map and no candidates. -/
theorem c6_default_isfulfilled_witness :
    (objLookup (computeEntities [] destinationParameters []).missingEntities
        "destination").isSome = true ↔
      objGet (computeEntities [] destinationParameters []).matchedEntities "destination"
        = JsVal.undef :=
  (c6_default_isfulfilled destinationParameters [] [] "destination" { dim := "city" }
    rfl rfl rfl (by simp [destinationParameters, objKeys])).2

/-- C4: priority law — for two unfulfilled parameters of the same dimension
with priorities P1 > P2, declared lower-priority first, and a single
candidate of that dimension, the pass processes the higher-priority
parameter first and it consumes the candidate (with the default reducer its
value becomes the candidate itself), while the value of the lower-priority
parameter is left unchanged; and the priority sort is stable — with all
priorities equal, the processing order is exactly the declaration order. -/
theorem c4_priority_law (na nb d : String) (P1 P2 : Int) (c : Candidate) (dE : EntMap)
    (hne : na ≠ nb) (hdim : c.dim = d) (hP : P2 < P1)
    (hmagic : objGet dE objectToStringKey = JsVal.undef)
    (ha : objGet dE na = JsVal.undef) (_hb : objGet dE nb = JsVal.undef) :
    (objGet (computeEntities [c]
        [(nb, { dim := d, priority := some (PriorityVal.num P2) }),
          (na, { dim := d, priority := some (PriorityVal.num P1) })] dE).matchedEntities na
        = c.toVal ∧
      objGet (computeEntities [c]
        [(nb, { dim := d, priority := some (PriorityVal.num P2) }),
          (na, { dim := d, priority := some (PriorityVal.num P1) })] dE).matchedEntities nb
        = objGet dE nb) ∧
    (∀ (prio : String → Int) (P0 : Int) (names : List String),
      (∀ n ∈ names, prio n = P0) → sortByPriorityDesc prio names = names) := by
  refine ⟨?_, fun prio P0 names h => sortByPriorityDesc_const prio P0 names h⟩
  have hne' : nb ≠ na := Ne.symm hne
  set sb : ParameterSpec := { dim := d, priority := some (PriorityVal.num P2) } with hsb
  set sa : ParameterSpec := { dim := d, priority := some (PriorityVal.num P1) } with hsa
  have hgb : getParam (normalizeParameters [(nb, sb), (na, sa)]) nb = normalizeParameter sb := by
    simp [getParam, normalizeParameters, objLookup]
  have hga : getParam (normalizeParameters [(nb, sb), (na, sa)]) na = normalizeParameter sa := by
    simp [getParam, normalizeParameters, objLookup, hne']
  have hpredb : (!(getParam (normalizeParameters [(nb, sb), (na, sa)]) nb).isFulfilled
      (objGet dE objectToStringKey) (ctxVal dE)) = true := by
    rw [hgb, hmagic]
    rfl
  have hpreda : (!(getParam (normalizeParameters [(nb, sb), (na, sa)]) na).isFulfilled
      (objGet dE objectToStringKey) (ctxVal dE)) = true := by
    rw [hga, hmagic]
    rfl
  have hpa : evalPriority (getParam (normalizeParameters [(nb, sb), (na, sa)]) na).priority
      = P1 := by
    rw [hga]
    rfl
  have hpb : evalPriority (getParam (normalizeParameters [(nb, sb), (na, sa)]) nb).priority
      = P2 := by
    rw [hgb]
    rfl
  have hnames : processedNames (normalizeParameters [(nb, sb), (na, sa)]) dE = [na, nb] := by
    unfold processedNames
    have hkeys : objKeys (normalizeParameters [(nb, sb), (na, sa)]) = [nb, na] := by
      simp [normalizeParameters, objKeys]
    rw [hkeys]
    have hfil : List.filter (fun name =>
        !(getParam (normalizeParameters [(nb, sb), (na, sa)]) name).isFulfilled
          (objGet dE objectToStringKey) (ctxVal dE)) [nb, na] = [nb, na] := by
      simp only [List.filter_cons, List.filter_nil, hpredb, hpreda, if_true]
    rw [hfil]
    unfold sortByPriorityDesc
    simp only [List.insertionSort, List.orderedInsert]
    rw [hpa, hpb, if_neg (not_le.mpr hP)]
  have hdimok : (c.dim == (getParam (normalizeParameters [(nb, sb), (na, sa)]) na).dim)
      = true := by
    simp [hga, normalizeParameter, hdim]
  have hnfok : (getParam (normalizeParameters [(nb, sb), (na, sa)]) na).isFulfilled
      JsVal.undef JsVal.undef = false := by
    rw [hga]
    rfl
  simp only [computeEntities]
  rw [hnames, List.foldl_cons, List.foldl_cons, List.foldl_nil]
  rw [computeStep_single_consume (normalizeParameters [(nb, sb), (na, sa)]) dE _ na c
    rfl ha hdimok hnfok]
  rw [computeStep_empty_pool (normalizeParameters [(nb, sb), (na, sa)]) dE _ nb rfl]
  constructor
  · show objGet (objSet (objSet dE na _) nb (objGet dE nb)) na = c.toVal
    rw [objGet_objSet_ne _ _ hne', objGet_objSet_self, hga]
    rfl
  · show objGet (objSet (objSet dE na _) nb (objGet dE nb)) nb = objGet dE nb
    rw [objGet_objSet_self]

/-- Witness for c4_priority_law: parameters a (priority 5) and b
(priority 1) over dimension "city" with the single Paris candidate. -/
theorem c4_priority_law_witness :
    (objGet (computeEntities [parisCandidate]
        [("b", { dim := "city", priority := some (PriorityVal.num 1) }),
          ("a", { dim := "city", priority := some (PriorityVal.num 5) })] []).matchedEntities "a"
        = parisCandidate.toVal ∧
      objGet (computeEntities [parisCandidate]
        [("b", { dim := "city", priority := some (PriorityVal.num 1) }),
          ("a", { dim := "city", priority := some (PriorityVal.num 5) })] []).matchedEntities "b"
        = objGet [] "b") :=
  (c4_priority_law "a" "b" "city" 5 1 parisCandidate []
    (by decide) rfl (by decide) rfl rfl rfl).1

end PromptDialog
